import Mathlib

set_option maxRecDepth 16384

/-!
# Verification of the noteshare.space server core

A shallow embedding of the note-sharing server's core logic:

* the identifier checksum validator `checkId` from
  `src/server/src/controllers/note/note.post.controller.ts`, together with the
  CRC-16/ARC routine of the npm `crc` package that it calls;
* the write controller `postNoteController` from the same file, with the
  request-body validation performed by the `class-validator` decorators on
  `NotePostRequest`;
* the note store read path, expiry sweeper, and rate limiter, which are
  modelled from the specification where their sources are not available.

JS strings are modelled as `List Char` (lists of Unicode scalar values); the
`crc` package hashes the UTF-8 encoding of the string, which is made explicit
by `strBytes`.  Machine integers are modelled as `Nat`; the CRC state is kept
below `2 ^ 16` as an invariant rather than by a machine-word type.
-/

/-- One bit-step of the reflected CRC-16/ARC update used by the npm `crc`
package's `crc16`: shift right and conditionally xor the reflected
polynomial `0xA001`. -/
def crcStep (s : Nat) : Nat :=
  if s % 2 = 1 then (s / 2) ^^^ 0xA001 else s / 2

/-- Eight consecutive bit-steps of the CRC-16/ARC update. -/
def crcStep8 (s : Nat) : Nat :=
  crcStep (crcStep (crcStep (crcStep (crcStep (crcStep (crcStep (crcStep s)))))))

/-- Absorb one input byte into the CRC-16/ARC state: xor the byte into the
low bits and run eight bit-steps. -/
def crcByte (s b : Nat) : Nat := crcStep8 (s ^^^ b)

/-- CRC-16/ARC of a byte sequence with initial value 0, as computed by the
npm `crc` package's `crc16` (the `crc` import of the write controller). -/
def crc16 (data : List Nat) : Nat := data.foldl crcByte 0

/-- UTF-8 encoding of a single Unicode scalar value, byte values as `Nat`.
`Buffer.from(string)` in node (used by the `crc` package on string input)
encodes the string as UTF-8. -/
def utf8Bytes (c : Char) : List Nat :=
  let n := c.toNat
  if n < 128 then [n]
  else if n < 2048 then [192 + n / 64, 128 + n % 64]
  else if n < 65536 then [224 + n / 4096, 128 + n / 64 % 64, 128 + n % 64]
  else [240 + n / 262144, 128 + n / 4096 % 64, 128 + n / 64 % 64, 128 + n % 64]

/-- The UTF-8 byte sequence of a JS string. -/
def strBytes (s : List Char) : List Nat := s.flatMap utf8Bytes

/-- Lowercase hexadecimal digit characters, as produced by JS
`Number.prototype.toString(16)`. -/
def hexDigit : Nat → Char
  | 0 => '0' | 1 => '1' | 2 => '2' | 3 => '3'
  | 4 => '4' | 5 => '5' | 6 => '6' | 7 => '7'
  | 8 => '8' | 9 => '9' | 10 => 'a' | 11 => 'b'
  | 12 => 'c' | 13 => 'd' | 14 => 'e' | _ => 'f'

/-- Digit-extraction loop for `toHexString`, with a structural fuel argument
so that the kernel can evaluate it; `fuel > n` always suffices because the
argument shrinks by a factor of 16 each round. -/
def toHexStringAux : Nat → Nat → List Char
  | 0, _ => []
  | fuel + 1, n =>
    if n < 16 then [hexDigit n]
    else toHexStringAux fuel (n / 16) ++ [hexDigit (n % 16)]

/-- JS `n.toString(16)` for a non-negative integer: minimal-length lowercase
hexadecimal rendering (no leading zeros, `"0"` for zero). -/
def toHexString (n : Nat) : List Char := toHexStringAux (n + 1) n

theorem toHexStringAux_congr : ∀ (f g n : Nat), n < f → n < g →
    toHexStringAux f n = toHexStringAux g n
  | 0, _, _, hf, _ => absurd hf (by omega)
  | _ + 1, 0, _, _, hg => absurd hg (by omega)
  | f + 1, g + 1, n, _, _ => by
    simp only [toHexStringAux]
    split
    · rfl
    · rename_i h
      rw [toHexStringAux_congr f g (n / 16) (by omega) (by omega)]

theorem toHexStringAux_succ (f n : Nat) : toHexStringAux (f + 1) n =
    if n < 16 then [hexDigit n] else toHexStringAux f (n / 16) ++ [hexDigit (n % 16)] := rfl

/-- The defining recurrence of the minimal hex rendering. -/
theorem toHexString_eq (n : Nat) : toHexString n =
    if n < 16 then [hexDigit n] else toHexString (n / 16) ++ [hexDigit (n % 16)] := by
  unfold toHexString
  rw [toHexStringAux_succ]
  by_cases h : n < 16
  · rw [if_pos h, if_pos h]
  · rw [if_neg h, if_neg h]
    rw [toHexStringAux_congr n (n / 16 + 1) (n / 16) (by omega) (by omega)]

/-- JS `s.padStart(4, "0")`: left-pad with `'0'` up to length 4. -/
def padStart4 (l : List Char) : List Char := List.replicate (4 - l.length) '0' ++ l

/-- The rendered checksum `crc(random).toString(16).padStart(4, "0")` of the
write controller's `checkId`. -/
def checksumStr (n : Nat) : List Char := padStart4 (toHexString n)

/-- `checkId` from `src/server/src/controllers/note/note.post.controller.ts`:
length must be 16; the CRC-16 of the first 12 characters, rendered as
zero-padded lowercase hex, must equal the trailing 4 characters. -/
def checkId (id : List Char) : Bool :=
  if id.length ≠ 16 then false
  else
    let random := id.take 12
    let checksum := id.drop 12
    let computedChecksum := checksumStr (crc16 (strBytes random))
    computedChecksum == checksum

/-! ## Bounds and injectivity of the CRC-16 state update -/

theorem xor_lt_65536 {a b : Nat} (ha : a < 65536) (hb : b < 65536) : a ^^^ b < 65536 := by
  have h : (2 : Nat) ^ 16 = 65536 := by norm_num
  rw [← h] at ha hb ⊢
  exact Nat.xor_lt_two_pow ha hb

theorem xor_a001_ge {a : Nat} (ha : a < 32768) : 32768 ≤ a ^^^ 0xA001 := by
  have h : (2 : Nat) ^ 15 = 32768 := by norm_num
  have hbit : (a ^^^ 0xA001).testBit 15 = true := by
    rw [Nat.testBit_xor]
    have hfa : a.testBit 15 = false := Nat.testBit_lt_two_pow (by omega)
    rw [hfa]
    decide
  have := Nat.testBit_implies_ge hbit
  omega

theorem crcStep_lt {s : Nat} (h : s < 65536) : crcStep s < 65536 := by
  unfold crcStep
  split
  · exact xor_lt_65536 (by omega) (by norm_num)
  · omega

theorem crcStep_inj {s t : Nat} (hs : s < 65536) (ht : t < 65536)
    (h : crcStep s = crcStep t) : s = t := by
  unfold crcStep at h
  by_cases h1 : s % 2 = 1 <;> by_cases h2 : t % 2 = 1 <;> simp only [h1, h2, if_pos, if_neg, if_true, if_false] at h
  · have := Nat.xor_left_injective h
    omega
  · have hge := xor_a001_ge (a := s / 2) (by omega)
    omega
  · have hge := xor_a001_ge (a := t / 2) (by omega)
    omega
  · omega

theorem crcStep8_lt {s : Nat} (h : s < 65536) : crcStep8 s < 65536 :=
  crcStep_lt (crcStep_lt (crcStep_lt (crcStep_lt
    (crcStep_lt (crcStep_lt (crcStep_lt (crcStep_lt h)))))))

theorem crcStep8_inj {s t : Nat} (hs : s < 65536) (ht : t < 65536)
    (h : crcStep8 s = crcStep8 t) : s = t := by
  unfold crcStep8 at h
  have s1 := crcStep_lt hs; have t1 := crcStep_lt ht
  have s2 := crcStep_lt s1; have t2 := crcStep_lt t1
  have s3 := crcStep_lt s2; have t3 := crcStep_lt t2
  have s4 := crcStep_lt s3; have t4 := crcStep_lt t3
  have s5 := crcStep_lt s4; have t5 := crcStep_lt t4
  have s6 := crcStep_lt s5; have t6 := crcStep_lt t5
  have s7 := crcStep_lt s6; have t7 := crcStep_lt t6
  exact crcStep_inj hs ht (crcStep_inj s1 t1 (crcStep_inj s2 t2 (crcStep_inj s3 t3
    (crcStep_inj s4 t4 (crcStep_inj s5 t5 (crcStep_inj s6 t6 (crcStep_inj s7 t7 h)))))))

theorem crcByte_lt {s b : Nat} (hs : s < 65536) (hb : b < 256) : crcByte s b < 65536 :=
  crcStep8_lt (xor_lt_65536 hs (by omega))

theorem crcByte_inj {s t b : Nat} (hs : s < 65536) (ht : t < 65536) (hb : b < 65536)
    (h : crcByte s b = crcByte t b) : s = t := by
  have h8 := crcStep8_inj (xor_lt_65536 hs hb) (xor_lt_65536 ht hb) h
  exact Nat.xor_left_injective h8

theorem foldl_crcByte_lt : ∀ (l : List Nat) (s : Nat), s < 65536 → (∀ v ∈ l, v < 256) →
    l.foldl crcByte s < 65536
  | [], _, hs, _ => hs
  | b :: l, s, hs, hl => by
    simp only [List.foldl_cons]
    exact foldl_crcByte_lt l _ (crcByte_lt hs (hl b (by simp)))
      (fun v hv => hl v (by simp [hv]))

theorem foldl_crcByte_inj : ∀ (l : List Nat) (s t : Nat), s < 65536 → t < 65536 →
    (∀ v ∈ l, v < 256) → l.foldl crcByte s = l.foldl crcByte t → s = t
  | [], _, _, _, _, _, h => h
  | b :: l, s, t, hs, ht, hl, h => by
    simp only [List.foldl_cons] at h
    have hb : b < 256 := hl b (by simp)
    have := foldl_crcByte_inj l _ _ (crcByte_lt hs hb) (crcByte_lt ht hb)
      (fun v hv => hl v (by simp [hv])) h
    exact crcByte_inj hs ht (by omega) this

/-- The CRC-16 of a byte sequence fits in 16 bits. -/
theorem crc16_lt {l : List Nat} (hl : ∀ v ∈ l, v < 256) : crc16 l < 65536 :=
  foldl_crcByte_lt l 0 (by omega) hl

/-- CRC-16 single-byte sensitivity: two byte sequences that agree everywhere
except at one position, where they hold two different bytes, have different
CRC-16 values. -/
theorem crc16_flip_ne {pre suf : List Nat} {x y : Nat}
    (hpre : ∀ v ∈ pre, v < 256) (hsuf : ∀ v ∈ suf, v < 256)
    (hx : x < 256) (hy : y < 256) (hxy : x ≠ y) :
    crc16 (pre ++ x :: suf) ≠ crc16 (pre ++ y :: suf) := by
  unfold crc16
  rw [List.foldl_append, List.foldl_append]
  simp only [List.foldl_cons]
  intro h
  have hs : pre.foldl crcByte 0 < 65536 := foldl_crcByte_lt pre 0 (by omega) hpre
  have h2 := foldl_crcByte_inj suf _ _ (crcByte_lt hs hx) (crcByte_lt hs hy) hsuf h
  have h3 := crcStep8_inj (xor_lt_65536 hs (by omega)) (xor_lt_65536 hs (by omega)) h2
  exact hxy (Nat.xor_right_injective h3)

/-! ## UTF-8 byte facts -/

theorem char_toNat_lt (c : Char) : c.toNat < 1114112 := by
  rcases c.valid with h | h
  · exact Nat.lt_trans h (by norm_num)
  · exact h.2

theorem utf8Bytes_lt (c : Char) : ∀ v ∈ utf8Bytes c, v < 256 := by
  have hc := char_toNat_lt c
  intro v hv
  simp only [utf8Bytes] at hv
  split at hv
  · simp at hv; omega
  · split at hv
    · simp at hv; rcases hv with h | h <;> omega
    · split at hv
      · simp at hv; rcases hv with h | h | h <;> omega
      · simp at hv; rcases hv with h | h | h | h <;> omega

theorem strBytes_lt (s : List Char) : ∀ v ∈ strBytes s, v < 256 := by
  intro v hv
  unfold strBytes at hv
  rcases List.mem_flatMap.1 hv with ⟨c, _, hvc⟩
  exact utf8Bytes_lt c v hvc

theorem utf8Bytes_ascii {c : Char} (h : c.toNat < 128) : utf8Bytes c = [c.toNat] := by
  unfold utf8Bytes
  rw [if_pos h]

theorem strBytes_ascii : ∀ {s : List Char}, (∀ c ∈ s, c.toNat < 128) →
    strBytes s = s.map Char.toNat
  | [], _ => rfl
  | c :: s, h => by
    have hc : utf8Bytes c = [c.toNat] := utf8Bytes_ascii (h c (by simp))
    have ih : strBytes s = s.map Char.toNat :=
      strBytes_ascii (fun d hd => h d (List.mem_cons_of_mem c hd))
    simp only [strBytes, List.flatMap_cons] at ih ⊢
    rw [hc, ih]
    simp

theorem strBytes_append (a b : List Char) :
    strBytes (a ++ b) = strBytes a ++ strBytes b := by
  simp [strBytes]

/-! ## The rendered checksum string -/

/-- Numeric value of a hexadecimal digit character (left inverse of `hexDigit`). -/
def hexVal (c : Char) : Nat :=
  if c.toNat ≤ 57 then c.toNat - 48 else c.toNat - 87

/-- Value of a hex digit string, most significant digit first. -/
def hexListVal (l : List Char) : Nat := l.foldl (fun a c => 16 * a + hexVal c) 0

theorem hexVal_hexDigit {k : Nat} (h : k < 16) : hexVal (hexDigit k) = k := by
  interval_cases k <;> decide

theorem hexListVal_append_digit (l : List Char) (c : Char) :
    hexListVal (l ++ [c]) = 16 * hexListVal l + hexVal c := by
  simp [hexListVal, List.foldl_append]

theorem hexListVal_toHexString (n : Nat) : hexListVal (toHexString n) = n := by
  induction n using Nat.strong_induction_on with
  | _ n ih =>
    rw [toHexString_eq]
    split
    · rename_i h
      simp only [hexListVal, List.foldl_cons, List.foldl_nil]
      rw [hexVal_hexDigit h]
      omega
    · rename_i h
      rw [hexListVal_append_digit]
      rw [ih (n / 16) (by omega)]
      rw [hexVal_hexDigit (show n % 16 < 16 by omega)]
      omega

theorem hexListVal_replicate_zero :
    ∀ (k : Nat) (l : List Char), hexListVal (List.replicate k '0' ++ l) = hexListVal l
  | 0, _ => rfl
  | k + 1, l => by
    simp only [List.replicate_succ, List.cons_append, hexListVal, List.foldl_cons]
    have h0 : 16 * 0 + hexVal '0' = 0 := by decide
    rw [h0]
    exact hexListVal_replicate_zero k l

/-- The rendered 4-digit checksum determines the checksum value. -/
theorem checksumStr_inj {n m : Nat} (h : checksumStr n = checksumStr m) : n = m := by
  have hn := hexListVal_toHexString n
  have hm := hexListVal_toHexString m
  unfold checksumStr padStart4 at h
  have hv := congrArg hexListVal h
  rw [hexListVal_replicate_zero, hexListVal_replicate_zero] at hv
  omega

theorem toHexString_length_le (n : Nat) : ∀ k, 1 ≤ k → n < 16 ^ k →
    (toHexString n).length ≤ k := by
  induction n using Nat.strong_induction_on with
  | _ n ih =>
    intro k hk hn
    rw [toHexString_eq]
    split
    · simpa using hk
    · rename_i h
      rw [List.length_append]
      simp only [List.length_cons, List.length_nil]
      have hk2 : 2 ≤ k := by
        rcases Nat.lt_or_ge k 2 with hlt | hge
        · have hk1 : k = 1 := by omega
          subst hk1
          rw [pow_one] at hn
          omega
        · exact hge
      have hpow : 16 ^ (k - 1) * 16 = 16 ^ k := by
        have hs : k - 1 + 1 = k := by omega
        rw [← pow_succ, hs]
      have hdiv : n / 16 < 16 ^ (k - 1) := by
        rw [Nat.div_lt_iff_lt_mul (by norm_num)]
        omega
      have := ih (n / 16) (by omega) (k - 1) (by omega) hdiv
      omega

theorem toHexString_length_pos (n : Nat) : 1 ≤ (toHexString n).length := by
  rw [toHexString_eq]
  split
  · simp
  · rw [List.length_append]
    simp

theorem checksumStr_length {n : Nat} (h : n < 65536) : (checksumStr n).length = 4 := by
  unfold checksumStr padStart4
  rw [List.length_append, List.length_replicate]
  have h16 : (16 : Nat) ^ 4 = 65536 := by norm_num
  have h1 := toHexString_length_le n 4 (by omega) (by omega)
  have h2 := toHexString_length_pos n
  omega

/-- The specification's rendering of a 16-bit checksum: exactly 4 lowercase
hex digits, zero-padded (§4.1 of the spec). -/
def specHex4 (n : Nat) : List Char :=
  [hexDigit (n / 4096 % 16), hexDigit (n / 256 % 16), hexDigit (n / 16 % 16), hexDigit (n % 16)]

/-- For 16-bit values, the source's `toString(16).padStart(4, "0")` rendering
agrees with the specification's fixed 4-digit rendering. -/
theorem checksumStr_eq_specHex4 {n : Nat} (h : n < 65536) : checksumStr n = specHex4 n := by
  unfold checksumStr padStart4 specHex4
  by_cases h1 : n < 16
  · rw [toHexString_eq, if_pos h1]
    simp only [List.length_cons, List.length_nil]
    have e1 : n / 4096 % 16 = 0 := by omega
    have e2 : n / 256 % 16 = 0 := by omega
    have e3 : n / 16 % 16 = 0 := by omega
    have e4 : n % 16 = n := by omega
    rw [e1, e2, e3, e4]
    rfl
  · by_cases h2 : n < 256
    · rw [toHexString_eq, if_neg h1]
      rw [toHexString_eq, if_pos (show n / 16 < 16 by omega)]
      simp only [List.length_append, List.length_cons, List.length_nil]
      have e1 : n / 4096 % 16 = 0 := by omega
      have e2 : n / 256 % 16 = 0 := by omega
      have e3 : n / 16 % 16 = n / 16 := by omega
      rw [e1, e2, e3]
      rfl
    · by_cases h3 : n < 4096
      · rw [toHexString_eq, if_neg h1]
        rw [toHexString_eq, if_neg (show ¬ n / 16 < 16 by omega)]
        rw [toHexString_eq, if_pos (show n / 16 / 16 < 16 by omega)]
        simp only [List.length_append, List.length_cons, List.length_nil]
        have d1 : n / 16 / 16 = n / 256 := by omega
        have d2 : n / 16 % 16 = n / 16 % 16 := rfl
        have e1 : n / 4096 % 16 = 0 := by omega
        have e2 : n / 256 % 16 = n / 256 := by omega
        rw [d1, e1, e2]
        rfl
      · rw [toHexString_eq, if_neg h1]
        rw [toHexString_eq, if_neg (show ¬ n / 16 < 16 by omega)]
        rw [toHexString_eq, if_neg (show ¬ n / 16 / 16 < 16 by omega)]
        rw [toHexString_eq, if_pos (show n / 16 / 16 / 16 < 16 by omega)]
        simp only [List.length_append, List.length_cons, List.length_nil]
        have d1 : n / 16 / 16 = n / 256 := by omega
        rw [d1]
        have d2 : n / 256 / 16 = n / 4096 := by omega
        have e1 : n / 4096 % 16 = n / 4096 := by omega
        rw [d2, e1]
        rfl

/-! ## The identifier validator -/

/-- Unfolding of `checkId` without the intermediate `let` bindings. -/
theorem checkId_eq (id : List Char) :
    checkId id = if id.length ≠ 16 then false
      else (checksumStr (crc16 (strBytes (id.take 12))) == id.drop 12) := rfl

/-- A lowercase hexadecimal digit character (`[0-9a-f]`), the alphabet of the
specification's identifier scheme (§4.1). -/
def isLowerHexChar (c : Char) : Bool :=
  (48 ≤ c.toNat && c.toNat ≤ 57) || (97 ≤ c.toNat && c.toNat ≤ 102)

theorem lowerHex_ascii {c : Char} (h : isLowerHexChar c = true) : c.toNat < 128 := by
  unfold isLowerHexChar at h
  simp at h
  omega

theorem char_toNat_inj {a b : Char} (h : a.toNat = b.toNat) : a = b := by
  have hc := congrArg Char.ofNat h
  rwa [Char.ofNat_toNat, Char.ofNat_toNat] at hc

theorem strBytes_cons (c : Char) (s : List Char) :
    strBytes (c :: s) = utf8Bytes c ++ strBytes s := by
  simp [strBytes]

/-- Modelled from the spec: §4.1 `generate` — a random prefix followed by its
CRC-16 checksum rendered as 4 lowercase zero-padded hex digits (the id
generator itself lives in the note dao, which is not under `src/`; the
rendering reuses the write controller's `checkId` computation). -/
def generateId (random : List Char) : List Char :=
  random ++ checksumStr (crc16 (strBytes random))

/-- Any 12-character prefix extended by its rendered CRC-16 passes `checkId`. -/
theorem checkId_generateId {p : List Char} (hp : p.length = 12) :
    checkId (generateId p) = true := by
  have hcrc : crc16 (strBytes p) < 65536 := crc16_lt (strBytes_lt p)
  have hlen := checksumStr_length hcrc
  unfold generateId
  rw [checkId_eq]
  rw [if_neg (by rw [List.length_append]; omega)]
  rw [List.take_left' hp, List.drop_left' hp]
  exact beq_self_eq_true _

/-! ## Claims about the identifier validator -/

/-- C10: `checkId` is total — on every input string it returns a boolean
(no exception), and every input whose length differs from 16 is rejected. -/
theorem C10_checkId_total (id : List Char) :
    (checkId id = true ∨ checkId id = false) ∧
    (id.length ≠ 16 → checkId id = false) := by
  constructor
  · cases h : checkId id
    · exact Or.inr rfl
    · exact Or.inl rfl
  · intro h
    rw [checkId_eq, if_pos h]

/-- Witness for C10 at the 3-character input `"NaN"`. -/
theorem C10_checkId_total_witness : checkId ['N', 'a', 'N'] = false :=
  (C10_checkId_total ['N', 'a', 'N']).2 (by decide)

/-- C2 (counterexample): `checkId` is not equivalent to the specification's
validation predicate — the input `"zzzzzzzzzzzz99ff"` has non-hexadecimal
characters, yet its trailing 4 characters match the CRC-16 of its first 12
characters, so `checkId` accepts it while the claimed right-hand side fails. -/
theorem C2_counterexample :
    checkId ['z','z','z','z','z','z','z','z','z','z','z','z','9','9','f','f'] = true ∧
    ¬ ((['z','z','z','z','z','z','z','z','z','z','z','z','9','9','f','f'] :
          List Char).length = 16 ∧
       (['z','z','z','z','z','z','z','z','z','z','z','z','9','9','f','f'] :
          List Char).all isLowerHexChar = true ∧
       (['z','z','z','z','z','z','z','z','z','z','z','z','9','9','f','f'] :
          List Char).drop 12
         = specHex4 (crc16 (strBytes ((['z','z','z','z','z','z','z','z','z','z','z','z',
             '9','9','f','f'] : List Char).take 12)))) :=
  ⟨by decide, by decide⟩

/-- Characterization of `checkId`: length exactly 16 and the trailing 4
characters equal the CRC-16 of the first 12 characters in the fixed 4-digit
lowercase rendering. -/
theorem checkId_true_iff (id : List Char) :
    checkId id = true ↔
      (id.length = 16 ∧ id.drop 12 = specHex4 (crc16 (strBytes (id.take 12)))) := by
  rw [checkId_eq]
  by_cases h : id.length = 16
  · rw [if_neg (by omega)]
    rw [checksumStr_eq_specHex4 (crc16_lt (strBytes_lt (id.take 12)))]
    constructor
    · intro hb
      exact ⟨h, (beq_iff_eq.mp hb).symm⟩
    · intro hc
      rw [hc.2]
      exact beq_self_eq_true _
  · simp [h]

/-- C2 (amended): `checkId id` is true iff `id` has length exactly 16 and its
trailing 4 characters equal the CRC-16 of its first 12 characters rendered as
4 lowercase zero-padded hex digits; `checkId` does not require the first 12
characters to be hexadecimal. -/
theorem C2_amended_checkId_iff (id : List Char) :
    checkId id = true ↔
      (id.length = 16 ∧ id.drop 12 = specHex4 (crc16 (strBytes (id.take 12)))) :=
  checkId_true_iff id

/-- C5 (counterexample): single-character sensitivity fails for non-ASCII
replacement characters.  The id generated from the all-hex prefix
`"aaaaaaaaaaaa"` is `"aaaaaaaaaaaa96d4"`; replacing its second character by
`'ሹ'` (U+1239, a different character, UTF-8 `e1 88 b9`) changes the hashed
byte sequence but not its CRC-16, so `checkId` still accepts the altered id. -/
theorem C5_counterexample :
    ['a','a','a','a','a','a','a','a','a','a','a','a','9','6','d','4']
      = generateId ['a','a','a','a','a','a','a','a','a','a','a','a'] ∧
    (['a','a','a','a','a','a','a','a','a','a','a','a'] : List Char).length = 12 ∧
    (['a','a','a','a','a','a','a','a','a','a','a','a'] : List Char).all isLowerHexChar
      = true ∧
    ('ሹ' : Char) ≠ 'a' ∧
    checkId ['a','ሹ','a','a','a','a','a','a','a','a','a','a','9','6','d','4'] = true := by
  refine ⟨by decide, by decide, by decide, by decide, by decide⟩

/-- C5 (amended): for every 12-character lowercase-hex prefix, the generated
id passes validation; and replacing any single character of the random part
by a different single-byte (ASCII) character, or any single character of the
checksum part by any different character, makes validation fail. -/
theorem C5_amended_generate_flip (p : List Char) (hlen : p.length = 12)
    (hhex : p.all isLowerHexChar = true) :
    checkId (generateId p) = true ∧
    (∀ a c b d, p = a ++ c :: b → d ≠ c → d.toNat < 128 →
      checkId ((a ++ d :: b) ++ checksumStr (crc16 (strBytes p))) = false) ∧
    (∀ a c b d, checksumStr (crc16 (strBytes p)) = a ++ c :: b → d ≠ c →
      checkId (p ++ (a ++ d :: b)) = false) := by
  have hcrc : crc16 (strBytes p) < 65536 := crc16_lt (strBytes_lt p)
  have hcslen := checksumStr_length hcrc
  have hascii : ∀ e ∈ p, e.toNat < 128 := fun e he =>
    lowerHex_ascii (List.all_eq_true.mp hhex e he)
  refine ⟨checkId_generateId hlen, ?_, ?_⟩
  · intro a c b d hsplit hne hd
    have hlenacb : a.length + 1 + b.length = 12 := by
      rw [hsplit] at hlen
      simp [List.length_append] at hlen
      omega
    have hlen2 : (a ++ d :: b).length = 12 := by
      simp [List.length_append]
      omega
    have hc : c.toNat < 128 := hascii c (by rw [hsplit]; simp)
    have hbp : strBytes p = strBytes a ++ c.toNat :: strBytes b := by
      rw [hsplit, strBytes_append, strBytes_cons, utf8Bytes_ascii hc]
      simp
    have hbq : strBytes (a ++ d :: b) = strBytes a ++ d.toNat :: strBytes b := by
      rw [strBytes_append, strBytes_cons, utf8Bytes_ascii hd]
      simp
    have hcrcne : crc16 (strBytes (a ++ d :: b)) ≠ crc16 (strBytes p) := by
      rw [hbp, hbq]
      exact crc16_flip_ne (strBytes_lt a) (strBytes_lt b) (by omega) (by omega)
        (fun he => hne (char_toNat_inj he))
    rw [checkId_eq]
    rw [if_neg (by rw [List.length_append]; omega)]
    rw [List.take_left' hlen2, List.drop_left' hlen2]
    rw [beq_eq_false_iff_ne]
    intro heq
    exact hcrcne (checksumStr_inj heq)
  · intro a c b d hsplit hne
    have hlenacb : a.length + 1 + b.length = 4 := by
      rw [hsplit] at hcslen
      simp [List.length_append] at hcslen
      omega
    rw [checkId_eq]
    rw [if_neg (by rw [List.length_append]; simp [List.length_append]; omega)]
    rw [List.take_left' hlen, List.drop_left' hlen]
    rw [hsplit, beq_eq_false_iff_ne]
    intro heq
    have hcons := List.append_cancel_left heq
    exact hne (List.cons.inj hcons).1.symm

/-- Witness for C5 (amended) at the prefix `"aaaaaaaaaaaa"`: the generated id
validates, an ASCII flip in the random part fails, and a flip in the checksum
part fails. -/
theorem C5_amended_generate_flip_witness :
    checkId (generateId ['a','a','a','a','a','a','a','a','a','a','a','a']) = true ∧
    checkId (([] ++ 'b' :: ['a','a','a','a','a','a','a','a','a','a','a'])
      ++ checksumStr (crc16 (strBytes ['a','a','a','a','a','a','a','a','a','a','a','a'])))
      = false ∧
    checkId (['a','a','a','a','a','a','a','a','a','a','a','a']
      ++ ([] ++ '0' :: ['6','d','4'])) = false := by
  have h := C5_amended_generate_flip ['a','a','a','a','a','a','a','a','a','a','a','a']
    (by decide) (by decide)
  exact ⟨h.1,
    h.2.1 [] 'a' ['a','a','a','a','a','a','a','a','a','a','a'] 'b'
      (by decide) (by decide) (by decide),
    h.2.2 [] '9' ['6','d','4'] '0' (by decide) (by decide)⟩

/-! ## The write controller -/

/-- A decimal digit character. -/
def isDigitChar (c : Char) : Bool := 48 ≤ c.toNat && c.toNat ≤ 57

/-- A hexadecimal digit character of either case (validator.js `[0-9A-Fa-f]`). -/
def isHexDigitChar (c : Char) : Bool :=
  (48 ≤ c.toNat && c.toNat ≤ 57) || (97 ≤ c.toNat && c.toNat ≤ 102) ||
  (65 ≤ c.toNat && c.toNat ≤ 70)

/-- validator.js `isHexadecimal` (the `@IsHexadecimal` decorator): the regex
`^(0x|0h)?[0-9A-Fa-f]+$` with case-insensitive prefix. -/
def isHexadecimalStr (l : List Char) : Bool :=
  (!l.isEmpty && l.all isHexDigitChar) ||
  (match l with
   | '0' :: x :: rest =>
     (x == 'x' || x == 'X' || x == 'h' || x == 'H') &&
     !rest.isEmpty && rest.all isHexDigitChar
   | _ => false)

/-- A character of the base64 alphabet, including padding. -/
def isBase64Char (c : Char) : Bool :=
  (65 ≤ c.toNat && c.toNat ≤ 90) || (97 ≤ c.toNat && c.toNat ≤ 122) ||
  (48 ≤ c.toNat && c.toNat ≤ 57) || c == '+' || c == '/' || c == '='

/-- validator.js `isBase64` (the `@IsBase64` decorator, non-url-safe): length
divisible by 4, only base64 characters, and `'='` only as final padding of one
or two characters. -/
def isBase64Str (l : List Char) : Bool :=
  let len := l.length
  let firstPad := (l.takeWhile (fun c => !(c == '='))).length
  (len % 4 == 0) && l.all isBase64Char &&
  (firstPad == len || firstPad == len - 1 ||
   (firstPad == len - 2 && l.getLast? == some '='))

/-- The `@Matches("^[0-9]+\\.[0-9]+\\.[0-9]+$")` pattern on `plugin_version`. -/
def matchesPluginVersion (l : List Char) : Bool :=
  match l.splitOn '.' with
  | [a, b, c] =>
    !a.isEmpty && a.all isDigitChar && !b.isEmpty && b.all isDigitChar &&
    !c.isEmpty && c.all isDigitChar
  | _ => false

/-- The `@Matches("^v[0-9]+$")` pattern on `crypto_version`. -/
def matchesCryptoVersion (l : List Char) : Bool :=
  match l with
  | 'v' :: rest => !rest.isEmpty && rest.all isDigitChar
  | _ => false

/-- The JSON body of `POST /api/note`; absent fields are `none`. -/
structure NotePostBody where
  ciphertext : Option (List Char)
  hmac : Option (List Char)
  user_id : Option (List Char)
  plugin_version : Option (List Char)
  crypto_version : Option (List Char)
deriving DecidableEq

/-- The `NotePostRequest` value after `Object.assign(new NotePostRequest(), req.body)`:
body fields overwrite the defaults, so `crypto_version` is `"v1"` only when
the body does not carry one. -/
structure NotePostRequest where
  ciphertext : Option (List Char)
  hmac : Option (List Char)
  user_id : Option (List Char)
  plugin_version : Option (List Char)
  crypto_version : List Char
deriving DecidableEq

def assignBody (b : NotePostBody) : NotePostRequest :=
  { ciphertext := b.ciphertext, hmac := b.hmac, user_id := b.user_id,
    plugin_version := b.plugin_version,
    crypto_version := b.crypto_version.getD ['v', '1'] }

/-- `validateOrReject` on `NotePostRequest`, per its class-validator
decorators: `@IsBase64 @IsNotEmpty` on `ciphertext` and `hmac` (absent fields
fail), `@IsHexadecimal` on a present `user_id`, the semver pattern on a
present `plugin_version`, and `^v[0-9]+$` on `crypto_version`. -/
def requestValid (r : NotePostRequest) : Bool :=
  (match r.ciphertext with | none => false | some l => isBase64Str l && !l.isEmpty) &&
  (match r.hmac with | none => false | some l => isBase64Str l && !l.isEmpty) &&
  (match r.user_id with | none => true | some l => isHexadecimalStr l) &&
  (match r.plugin_version with | none => true | some l => matchesPluginVersion l) &&
  matchesCryptoVersion r.crypto_version

/-- `WriteEvent` of `EventLogger` as populated by the write controller. -/
structure WriteEvent where
  success : Bool
  host : List Char
  user_id : Option (List Char) := none
  user_plugin_version : Option (List Char) := none
  note_id : Option (List Char) := none
  size_bytes : Option Nat := none
  expire_window_days : Option Nat := none
  error : Option (List Char) := none
deriving DecidableEq

/-- The note object built by the write controller (cast `as EncryptedNote` in
the source: only these four fields are set before storage). -/
structure NewNote where
  ciphertext : List Char
  hmac : List Char
  expire_time : Nat
  crypto_version : List Char
deriving DecidableEq

/-- A stored note row (prisma `EncryptedNote`): the note's fields plus the
server-assigned `id` and `insert_time`.  Timestamps are milliseconds. -/
structure EncryptedNote where
  id : List Char
  ciphertext : List Char
  hmac : List Char
  insert_time : Nat
  expire_time : Nat
  crypto_version : List Char
deriving DecidableEq

/-- Modelled from the spec: `util.addDays` (not under `src/`) — §3 requires
`expire_time` to be the creation timestamp plus the retention window in whole
days. -/
def addDays (t : Nat) (d : Nat) : Nat := t + d * 86400000

/-- `EXPIRE_WINDOW_DAYS` from the write controller. -/
def EXPIRE_WINDOW_DAYS : Nat := 30

/-- The controller's outcome: `res.status(400).send(msg)`, the JSON success
payload `{view_url, expire_time}` (HTTP 200), or `next(err)` forwarding the
storage error. -/
inductive ControllerRes where
  | badRequest (msg : List Char)
  | json (view_url : List Char) (expire_time : Nat)
  | nextErr (msg : List Char)
deriving DecidableEq

def ControllerRes.statusCode : ControllerRes → Option Nat
  | .badRequest _ => some 400
  | .json _ _ => some 200
  | .nextErr _ => none

/-- Placeholder for `err.toString()` of the class-validator `ValidationError`;
only its presence in the response and the audit event matters. -/
def validationErrText : List Char := ['V','a','l','i','d','a','t','i','o','n','E','r','r','o','r']

/-- The literal error text of the user-id checksum branch. -/
def invalidUserIdText : List Char :=
  ['I','n','v','a','l','i','d',' ','u','s','e','r',' ','i','d',' ','(','c','h','e','c','k','s','u','m',' ','f','a','i','l','e','d',')']

/-- JS truthiness of an optional string field: `undefined`, `null` and the
empty string are falsy. -/
def truthyStr : Option (List Char) -> Bool
  | none => false
  | some l => !l.isEmpty

/-- The note object the controller submits to storage for a given body and
creation time: validated ciphertext and hmac, `expire_time` 30 days out, and
the effective `crypto_version`. -/
def builtNote (now : Nat) (body : NotePostBody) : NewNote :=
  { ciphertext := (assignBody body).ciphertext.getD [],
    hmac := (assignBody body).hmac.getD [],
    expire_time := addDays now EXPIRE_WINDOW_DAYS,
    crypto_version := (assignBody body).crypto_version }

/-- `${process.env.FRONTEND_URL}/note/${id}`. -/
def viewUrlFor (frontendUrl id : List Char) : List Char :=
  frontendUrl ++ ['/','n','o','t','e','/'] ++ id

/-- `postNoteController` from
`src/server/src/controllers/note/note.post.controller.ts`, branch by branch:
initialize the `WriteEvent`; reject on body validation failure; reject on a
present-and-truthy `user_id` failing `checkId`; otherwise build the note and
call `createNote` (the note dao, abstracted as a parameter), answering with
the JSON payload on success and forwarding the error to `next` on failure.
Returns the response together with the list of `EventLogger.writeEvent`
calls performed. -/
def postNoteController (createNote : NewNote -> Except (List Char) EncryptedNote)
    (now : Nat) (frontendUrl : List Char) (host : List Char) (body : NotePostBody) :
    ControllerRes × List WriteEvent :=
  let event : WriteEvent :=
    { success := false, host := host, user_id := body.user_id,
      user_plugin_version := body.plugin_version }
  let notePostRequest := assignBody body
  if !requestValid notePostRequest then
    (.badRequest validationErrText, [{ event with error := some validationErrText }])
  else if truthyStr notePostRequest.user_id &&
      !checkId (notePostRequest.user_id.getD []) then
    (.badRequest invalidUserIdText, [{ event with error := some invalidUserIdText }])
  else
    match createNote (builtNote now body) with
    | .ok savedNote =>
      (.json (viewUrlFor frontendUrl savedNote.id) savedNote.expire_time,
       [{ event with
          success := true
          note_id := some savedNote.id
          size_bytes := some (savedNote.ciphertext.length + savedNote.hmac.length)
          expire_window_days := some EXPIRE_WINDOW_DAYS }])
    | .error err =>
      (.nextErr err, [{ event with error := some err }])

/-- Whether the controller persisted a note: storage is reached only past both
validations, and persistence succeeds iff `createNote` returns `ok`. -/
def persistedNote (createNote : NewNote -> Except (List Char) EncryptedNote)
    (now : Nat) (body : NotePostBody) : Option EncryptedNote :=
  if requestValid (assignBody body) &&
      !(truthyStr (assignBody body).user_id &&
        !checkId ((assignBody body).user_id.getD [])) then
    (createNote (builtNote now body)).toOption
  else none

/-! ## Claims about the write controller -/

/-- C3: every run of the write controller logs exactly one WRITE audit event —
on the body-validation failure, user-id checksum failure, storage success and
storage failure paths alike — and the event's success flag is true iff a note
was persisted and the 200 JSON response was sent. -/
theorem C3_write_event_exactly_once
    (createNote : NewNote -> Except (List Char) EncryptedNote)
    (now : Nat) (frontendUrl host : List Char) (body : NotePostBody) :
    ∃ e, (postNoteController createNote now frontendUrl host body).2 = [e] ∧
      (e.success = true ↔
        ((persistedNote createNote now body).isSome = true ∧
         (postNoteController createNote now frontendUrl host body).1.statusCode
           = some 200)) := by
  by_cases h1 : requestValid (assignBody body) = true
  · by_cases h2 : (truthyStr (assignBody body).user_id &&
        !checkId ((assignBody body).user_id.getD [])) = true
    · simp [postNoteController, persistedNote, h1, h2, ControllerRes.statusCode]
    · cases hcn : createNote (builtNote now body) with
      | ok saved =>
        simp [postNoteController, persistedNote, h1, h2, hcn,
          ControllerRes.statusCode, Except.toOption]
      | error err =>
        simp [postNoteController, persistedNote, h1, h2, hcn,
          ControllerRes.statusCode, Except.toOption]
  · simp [postNoteController, persistedNote, h1, ControllerRes.statusCode]

theorem isHexadecimalStr_ne_nil {l : List Char} (h : isHexadecimalStr l = true) :
    l.isEmpty = false := by
  cases l with
  | nil => simp [isHexadecimalStr] at h
  | cons c cs => simp [List.isEmpty]

/-- C6: a `POST /api/note` whose body carries a `user_id` failing the
identifier-checksum validation is rejected with status 400, no note is
persisted, and the single audit event is a failure carrying an error
description.  (A non-hexadecimal or empty `user_id` is caught by body
validation; a hexadecimal one with a bad checksum by the `checkId` branch.) -/
theorem C6_user_id_checksum_reject
    (createNote : NewNote -> Except (List Char) EncryptedNote)
    (now : Nat) (frontendUrl host : List Char) (body : NotePostBody) (u : List Char)
    (hu : body.user_id = some u) (hbad : checkId u = false) :
    (postNoteController createNote now frontendUrl host body).1.statusCode
      = some 400 ∧
    persistedNote createNote now body = none ∧
    ∃ e, (postNoteController createNote now frontendUrl host body).2 = [e] ∧
      e.success = false ∧ e.error ≠ none := by
  by_cases h1 : requestValid (assignBody body) = true
  · have hhex : isHexadecimalStr u = true := by
      have h1' := h1
      simp only [requestValid, assignBody, hu, Bool.and_eq_true] at h1'
      exact h1'.1.1.2
    have hcond : (truthyStr (assignBody body).user_id &&
        !checkId ((assignBody body).user_id.getD [])) = true := by
      simp [assignBody, hu, truthyStr, isHexadecimalStr_ne_nil hhex, hbad]
    simp [postNoteController, persistedNote, h1, hcond,
      ControllerRes.statusCode, invalidUserIdText]
  · simp [postNoteController, persistedNote, h1,
      ControllerRes.statusCode, validationErrText]

/-- Modelled from the spec: the note dao's `createNote` (not under `src/`) —
§4.2 `create` persists the submitted note unchanged and returns the stored
row with a fresh server-assigned id and the server-side `insert_time`. -/
def createNoteDao (freshId : List Char) (now : Nat) (n : NewNote) : EncryptedNote :=
  { id := freshId, ciphertext := n.ciphertext, hmac := n.hmac,
    insert_time := now, expire_time := n.expire_time,
    crypto_version := n.crypto_version }

/-- C4: on every successful write the stored row's `expire_time` is exactly
the creation time (its `insert_time`) plus 30 days, the JSON response carries
that expiry, and the WRITE event records `expire_window_days = 30`. -/
theorem C4_expiry_window (freshId : List Char) (now : Nat)
    (frontendUrl host : List Char) (body : NotePostBody) (u : List Char) (et : Nat)
    (e : WriteEvent)
    (hrun : postNoteController (fun n => .ok (createNoteDao freshId now n))
      now frontendUrl host body = (.json u et, [e])) :
    et = addDays now 30 ∧
    (createNoteDao freshId now (builtNote now body)).insert_time = now ∧
    (createNoteDao freshId now (builtNote now body)).expire_time = addDays now 30 ∧
    e.expire_window_days = some 30 := by
  by_cases h1 : requestValid (assignBody body) = true
  · by_cases h2 : (truthyStr (assignBody body).user_id &&
        !checkId ((assignBody body).user_id.getD [])) = true
    · simp [postNoteController, h1, h2] at hrun
    · simp [postNoteController, h1, h2, createNoteDao, builtNote,
        EXPIRE_WINDOW_DAYS] at hrun
      obtain ⟨⟨hv, het⟩, he⟩ := hrun
      subst het
      subst he
      simp [createNoteDao, builtNote, EXPIRE_WINDOW_DAYS]
  · simp [postNoteController, h1] at hrun

/-- C8: whenever the write controller's audit event reports success, storage
returned a saved row and the event's `size_bytes` equals the sum of the
lengths of that row's stored ciphertext and hmac. -/
theorem C8_size_bytes
    (createNote : NewNote -> Except (List Char) EncryptedNote)
    (now : Nat) (frontendUrl host : List Char) (body : NotePostBody) (e : WriteEvent)
    (hev : (postNoteController createNote now frontendUrl host body).2 = [e])
    (hsucc : e.success = true) :
    ∃ saved, createNote (builtNote now body) = .ok saved ∧
      persistedNote createNote now body = some saved ∧
      e.size_bytes = some (saved.ciphertext.length + saved.hmac.length) := by
  by_cases h1 : requestValid (assignBody body) = true
  · by_cases h2 : (truthyStr (assignBody body).user_id &&
        !checkId ((assignBody body).user_id.getD [])) = true
    · simp [postNoteController, h1, h2] at hev
      subst hev
      simp at hsucc
    · cases hcn : createNote (builtNote now body) with
      | ok saved =>
        simp [postNoteController, h1, h2, hcn] at hev
        subst hev
        exact ⟨saved, rfl, by simp [persistedNote, h1, h2, hcn, Except.toOption], rfl⟩
      | error err =>
        simp [postNoteController, h1, h2, hcn] at hev
        subst hev
        simp at hsucc
  · simp [postNoteController, h1] at hev
    subst hev
    simp at hsucc

/-- Witness for C4 at a concrete successful write (creation time 0). -/
theorem C4_expiry_window_witness :
    (2592000000 : Nat) = addDays 0 30 ∧
    (createNoteDao ['i','d','0'] 0 (builtNote 0
      ⟨some ['Y','W','J','j'], some ['Y','W','J','j'], none, none, none⟩)).insert_time
      = 0 ∧
    (createNoteDao ['i','d','0'] 0 (builtNote 0
      ⟨some ['Y','W','J','j'], some ['Y','W','J','j'], none, none, none⟩)).expire_time
      = addDays 0 30 ∧
    ({ success := true, host := [], note_id := some ['i','d','0'],
       size_bytes := some 8, expire_window_days := some 30 } : WriteEvent).expire_window_days
      = some 30 :=
  C4_expiry_window ['i','d','0'] 0 [] []
    ⟨some ['Y','W','J','j'], some ['Y','W','J','j'], none, none, none⟩
    ['/','n','o','t','e','/','i','d','0'] 2592000000
    { success := true, host := [], note_id := some ['i','d','0'],
      size_bytes := some 8, expire_window_days := some 30 }
    (by decide)

/-- Witness for C6 at a concrete rejected write: the all-zero user id is
hexadecimal but fails the checksum. -/
theorem C6_user_id_checksum_reject_witness :
    (postNoteController (fun n => .ok (createNoteDao ['i','d','0'] 0 n)) 0 [] []
      ⟨some ['Y','W','J','j'], some ['Y','W','J','j'],
       some ['0','0','0','0','0','0','0','0','0','0','0','0','0','0','0','0'],
       none, none⟩).1.statusCode = some 400 ∧
    persistedNote (fun n => .ok (createNoteDao ['i','d','0'] 0 n)) 0
      ⟨some ['Y','W','J','j'], some ['Y','W','J','j'],
       some ['0','0','0','0','0','0','0','0','0','0','0','0','0','0','0','0'],
       none, none⟩ = none ∧
    checkId ['0','0','0','0','0','0','0','0','0','0','0','0','0','0','0','0'] = false :=
  ⟨(C6_user_id_checksum_reject (fun n => .ok (createNoteDao ['i','d','0'] 0 n)) 0 [] []
      ⟨some ['Y','W','J','j'], some ['Y','W','J','j'],
       some ['0','0','0','0','0','0','0','0','0','0','0','0','0','0','0','0'],
       none, none⟩
      ['0','0','0','0','0','0','0','0','0','0','0','0','0','0','0','0']
      rfl (by decide)).1,
   (C6_user_id_checksum_reject (fun n => .ok (createNoteDao ['i','d','0'] 0 n)) 0 [] []
      ⟨some ['Y','W','J','j'], some ['Y','W','J','j'],
       some ['0','0','0','0','0','0','0','0','0','0','0','0','0','0','0','0'],
       none, none⟩
      ['0','0','0','0','0','0','0','0','0','0','0','0','0','0','0','0']
      rfl (by decide)).2.1,
   by decide⟩

/-- Witness for C8 at a concrete successful write: 4-byte ciphertext and
4-byte hmac give `size_bytes = 8`, the sum of the stored lengths. -/
theorem C8_size_bytes_witness :
    ({ success := true, host := [], note_id := some ['i','d','0'],
       size_bytes := some 8, expire_window_days := some 30 } : WriteEvent).size_bytes
      = some ((createNoteDao ['i','d','0'] 0 (builtNote 0
          ⟨some ['Y','W','J','j'], some ['Y','W','J','j'], none, none, none⟩)).ciphertext.length
        + (createNoteDao ['i','d','0'] 0 (builtNote 0
          ⟨some ['Y','W','J','j'], some ['Y','W','J','j'], none, none, none⟩)).hmac.length) := by
  obtain ⟨saved, hok, hpers, hsize⟩ :=
    C8_size_bytes (fun n => .ok (createNoteDao ['i','d','0'] 0 n)) 0 [] []
      ⟨some ['Y','W','J','j'], some ['Y','W','J','j'], none, none, none⟩
      { success := true, host := [], note_id := some ['i','d','0'],
        size_bytes := some 8, expire_window_days := some 30 }
      (by decide) rfl
  have hsaved : saved = createNoteDao ['i','d','0'] 0 (builtNote 0
      ⟨some ['Y','W','J','j'], some ['Y','W','J','j'], none, none, none⟩) :=
    (Except.ok.inj hok).symm
  rw [← hsaved]
  exact hsize

/-! ## The note store read path and the expiry sweeper (modelled from the spec) -/

/-- Audit event types (§3 `AuditEvent.type`). -/
inductive EventType where
  | READ
  | WRITE
  | PURGE
deriving DecidableEq

/-- Modelled from the spec: an audit event as recorded by the read handler and
the expiry sweeper (`EventLogger`'s read/purge call sites are not under
`src/`): type, success flag, subject id and payload size (§3). -/
structure AuditEvent where
  type : EventType
  success : Bool
  note_id : Option (List Char) := none
  size_bytes : Option Nat := none
deriving DecidableEq

/-- Modelled from the spec: the persistence layer's visible state — the stored
note rows plus the tombstone set of purged ids (§3, §4.2). -/
structure StoreState where
  notes : List EncryptedNote
  tombstones : List (List Char)
deriving DecidableEq

/-- Outcome of §4.2 `read`. -/
inductive ReadOutcome where
  | note (n : EncryptedNote)
  | gone
  | notFound
deriving DecidableEq

/-- Modelled from the spec: §4.2 `read` — identifier validation first (a
syntactically invalid id is NotFound, never Gone); a present record is
returned even when unswept-but-expired (the stated policy: only the sweeper
transitions a record to deleted); an absent record is Gone when tombstoned
and NotFound otherwise. -/
def readNote (st : StoreState) (id : List Char) : ReadOutcome :=
  if !checkId id then .notFound
  else
    match st.notes.find? (fun n => n.id == id) with
    | some n => .note n
    | none => if st.tombstones.contains id then .gone else .notFound

/-- Modelled from the spec: the `GET /api/note/:id` handler (§6, not under
`src/`) — 200 with the note, 410 when Gone, 404 when NotFound, and exactly one
READ audit event whose success mirrors the 200 outcome (§7). -/
def getNoteController (st : StoreState) (id : List Char) : Nat × AuditEvent :=
  match readNote st id with
  | .note n => (200, { type := .READ
                       success := true
                       note_id := some id
                       size_bytes := some (n.ciphertext.length + n.hmac.length) })
  | .gone => (410, { type := .READ, success := false, note_id := some id })
  | .notFound => (404, { type := .READ, success := false, note_id := some id })

/-- Modelled from the spec: `deleteExpiredNotes` (§4.2 `purgeExpired`, §4.3
the sweeper, not under `src/`) — delete every note whose `expire_time` is at
or before now, tombstone each deleted id, emit one successful PURGE event per
deleted note carrying its stored sizes, and return the deleted count. -/
def deleteExpiredNotes (now : Nat) (st : StoreState) :
    StoreState × List AuditEvent × Nat :=
  let expired := st.notes.filter (fun n => decide (n.expire_time ≤ now))
  let remaining := st.notes.filter (fun n => !decide (n.expire_time ≤ now))
  ({ notes := remaining,
     tombstones := st.tombstones ++ expired.map (fun n => n.id) },
   expired.map (fun n => { type := .PURGE
                           success := true
                           note_id := some n.id
                           size_bytes := some (n.ciphertext.length + n.hmac.length) }),
   expired.length)

theorem contains_eq_true_of_mem {α} [BEq α] [LawfulBEq α] {a : α} {l : List α}
    (h : a ∈ l) : l.contains a = true :=
  List.elem_eq_true_of_mem h

/-- In a list whose image under a key function has no duplicates, exactly one
element carries a given key that occurs. -/
theorem countP_eq_one_of_nodup_map {α β} [BEq β] [LawfulBEq β] (f : α → β) :
    ∀ (l : List α) (b : β), (l.map f).Nodup → ∀ a, a ∈ l → f a = b →
      l.countP (fun x => f x == b) = 1
  | [], b, _, a, ha, _ => absurd ha (by simp)
  | x :: xs, b, hnodup, a, ha, hfa => by
    have hn : (∀ y ∈ xs, ¬ f y = f x) ∧ (xs.map f).Nodup := by simpa using hnodup
    by_cases hx : f x = b
    · rw [List.countP_cons_of_pos _ _ (by simpa using hx)]
      have hzero : xs.countP (fun y => f y == b) = 0 := by
        rw [List.countP_eq_zero]
        intro y hy hb
        have hfy : f y = b := by simpa using hb
        exact hn.1 y hy (hfy.trans hx.symm)
      omega
    · rw [List.countP_cons_of_neg _ _ (by simpa using hx)]
      have hax : a ≠ x := fun he => hx (he ▸ hfa)
      have haxs : a ∈ xs := by
        rcases List.mem_cons.1 ha with h | h
        · exact absurd h hax
        · exact h
      exact countP_eq_one_of_nodup_map f xs b hn.2 a haxs hfa

/-- C1: a stored note whose `expire_time` is in the past but that has not yet
been swept is still served with 200; after one sweep the same id answers 410,
and the sweep emits exactly one PURGE audit event for that id, successful and
carrying the sum of the stored ciphertext and hmac lengths. -/
theorem C1_expiry_lifecycle (st : StoreState) (id : List Char)
    (n : EncryptedNote) (now : Nat)
    (hfind : st.notes.find? (fun m => m.id == id) = some n)
    (hexp : n.expire_time < now)
    (hvalid : checkId id = true)
    (hnodup : (st.notes.map (fun m => m.id)).Nodup) :
    (getNoteController st id).1 = 200 ∧
    (getNoteController (deleteExpiredNotes now st).1 id).1 = 410 ∧
    ((deleteExpiredNotes now st).2.1.filter
        (fun e => e.note_id == some id)).length = 1 ∧
    ∀ e ∈ (deleteExpiredNotes now st).2.1, e.note_id = some id →
      e.success = true ∧ e.size_bytes = some (n.ciphertext.length + n.hmac.length) := by
  have hmemn : n ∈ st.notes := List.mem_of_find?_eq_some hfind
  have hnid : n.id = id := by
    have := List.find?_some hfind
    simpa using this
  have hinj := List.inj_on_of_nodup_map hnodup
  have hnexp : n ∈ st.notes.filter (fun m => decide (m.expire_time ≤ now)) :=
    List.mem_filter.2 ⟨hmemn, by simp; omega⟩
  refine ⟨?_, ?_, ?_, ?_⟩
  · simp [getNoteController, readNote, hvalid, hfind]
  · have hfindRem : (st.notes.filter (fun m => !decide (m.expire_time ≤ now))).find?
        (fun m => m.id == id) = none := by
      rw [List.find?_eq_none]
      intro m hm hpm
      have hmn : m ∈ st.notes := (List.mem_filter.1 hm).1
      have hmc := (List.mem_filter.1 hm).2
      have hmid : m.id = id := by simpa using hpm
      have hmeq : m = n := hinj hmn hmemn (by rw [hmid, hnid])
      subst hmeq
      simp at hmc
      omega
    have htomb : ((st.tombstones ++ (st.notes.filter
        (fun m => decide (m.expire_time ≤ now))).map (fun m => m.id)).contains id)
        = true :=
      contains_eq_true_of_mem
        (List.mem_append.2 (Or.inr (List.mem_map.2 ⟨n, hnexp, hnid⟩)))
    simp [deleteExpiredNotes, getNoteController, readNote, hvalid, hfindRem]
    rw [if_pos htomb]
  · simp only [deleteExpiredNotes]
    rw [← List.countP_eq_length_filter, List.countP_map]
    have hsubNodup : ((st.notes.filter
        (fun m => decide (m.expire_time ≤ now))).map (fun m => m.id)).Nodup :=
      hnodup.sublist ((List.filter_sublist _).map _)
    exact countP_eq_one_of_nodup_map (fun m => some m.id) _ (some id)
      (by
        have hmm : (st.notes.filter (fun m => decide (m.expire_time ≤ now))).map
            (fun m => some m.id)
            = ((st.notes.filter (fun m => decide (m.expire_time ≤ now))).map
                (fun m => m.id)).map some := by
          rw [List.map_map]
          rfl
        rw [hmm]
        exact hsubNodup.map (fun a b h => Option.some.inj h))
      n hnexp (by simp [hnid])
  · intro e he hid
    simp only [deleteExpiredNotes] at he
    rcases List.mem_map.1 he with ⟨m, hmE, hme⟩
    subst hme
    have hmid : m.id = id := by simpa using hid
    have hmn : m ∈ st.notes := (List.mem_filter.1 hmE).1
    have hmeq : m = n := hinj hmn hmemn (by rw [hmid, hnid])
    subst hmeq
    exact ⟨rfl, rfl⟩

/-- Witness for C1: a one-note store whose note expired at time 5, read and
then swept at time 10. -/
theorem C1_expiry_lifecycle_witness :
    (5 : Nat) < 10 ∧
    checkId ['a','a','a','a','a','a','a','a','a','a','a','a','9','6','d','4'] = true ∧
    (getNoteController (⟨[(⟨['a','a','a','a','a','a','a','a','a','a','a','a','9','6','d','4'], ['c'], ['h'], 0, 5, ['v','1']⟩ : EncryptedNote)], []⟩ : StoreState) ['a','a','a','a','a','a','a','a','a','a','a','a','9','6','d','4']).1 = 200 ∧
    (getNoteController (deleteExpiredNotes 10 (⟨[(⟨['a','a','a','a','a','a','a','a','a','a','a','a','9','6','d','4'], ['c'], ['h'], 0, 5, ['v','1']⟩ : EncryptedNote)], []⟩ : StoreState)).1 ['a','a','a','a','a','a','a','a','a','a','a','a','9','6','d','4']).1 = 410 ∧
    ((deleteExpiredNotes 10 (⟨[(⟨['a','a','a','a','a','a','a','a','a','a','a','a','9','6','d','4'], ['c'], ['h'], 0, 5, ['v','1']⟩ : EncryptedNote)], []⟩ : StoreState)).2.1.filter
        (fun e => e.note_id == some ['a','a','a','a','a','a','a','a','a','a','a','a','9','6','d','4'])).length = 1 := by
  have h := C1_expiry_lifecycle (⟨[(⟨['a','a','a','a','a','a','a','a','a','a','a','a','9','6','d','4'], ['c'], ['h'], 0, 5, ['v','1']⟩ : EncryptedNote)], []⟩ : StoreState) ['a','a','a','a','a','a','a','a','a','a','a','a','9','6','d','4'] (⟨['a','a','a','a','a','a','a','a','a','a','a','a','9','6','d','4'], ['c'], ['h'], 0, 5, ['v','1']⟩ : EncryptedNote) 10 rfl (by decide) (by decide)
    (by decide)
  exact ⟨by decide, by decide, h.1, h.2.1, h.2.2.1⟩

theorem isLowerHexChar_hexDigit (k : Nat) : isLowerHexChar (hexDigit k) = true := by
  unfold hexDigit
  split <;> decide

theorem specHex4_all_lowerHex (n : Nat) : ∀ c ∈ specHex4 n, isLowerHexChar c = true := by
  intro c hc
  simp only [specHex4, List.mem_cons, List.not_mem_nil, or_false] at hc
  rcases hc with h | h | h | h <;> (subst h; exact isLowerHexChar_hexDigit _)

/-- An identifier of the shape produced by the generator: 16 characters, the
first 12 drawn from the lowercase-hex alphabet, with a matching checksum. -/
def isGeneratedId (id : List Char) : Bool :=
  decide (id.length = 16) && (id.take 12).all isLowerHexChar && checkId id

theorem generated_take12_hex {id : List Char} (h : isGeneratedId id = true) :
    ∀ c ∈ id.take 12, isLowerHexChar c = true := by
  simp only [isGeneratedId, Bool.and_eq_true] at h
  exact fun c hc => List.all_eq_true.1 h.1.2 c hc

/-- Every stored or tombstoned id came from the generator (§4.2: ids are
assigned only by `generate`), so it is 12 lowercase-hex characters plus a
correct checksum. -/
def WellFormedStore (st : StoreState) : Prop :=
  (∀ n ∈ st.notes, isGeneratedId n.id = true) ∧
  (∀ t ∈ st.tombstones, isGeneratedId t = true)

/-- Syntactic invalidity in the sense of §4.1: wrong length, a character
outside the lowercase-hex alphabet, or a checksum mismatch. -/
def specInvalidId (id : List Char) : Prop :=
  id.length ≠ 16 ∨ (¬ ∀ c ∈ id, isLowerHexChar c = true) ∨
  id.drop 12 ≠ specHex4 (crc16 (strBytes (id.take 12)))

/-- C7: in a store populated only with generator-produced ids, a GET for a
syntactically invalid id (wrong length, non-hex character, or bad checksum)
answers 404 — never 410, whatever the tombstone state — and records a failed
READ audit event. -/
theorem C7_invalid_id_404 (st : StoreState) (id : List Char)
    (hwf : WellFormedStore st) (hinv : specInvalidId id) :
    (getNoteController st id).1 = 404 ∧
    (getNoteController st id).2.success = false := by
  by_cases hc : checkId id = true
  · obtain ⟨hlen, hdrop⟩ := (checkId_true_iff id).1 hc
    rcases hinv with h | h | h
    · exact absurd hlen h
    · push_neg at h
      obtain ⟨c, hcm, hchex⟩ := h
      have hchex' : ¬ isLowerHexChar c = true := hchex
      have hcmem12 : c ∈ id.take 12 := by
        have hsplit : c ∈ id.take 12 ++ id.drop 12 := by
          rw [List.take_append_drop]
          exact hcm
        rcases List.mem_append.1 hsplit with h12 | hdr
        · exact h12
        · exact absurd (specHex4_all_lowerHex _ c (hdrop ▸ hdr)) hchex'
      have hfindNone : st.notes.find? (fun m => m.id == id) = none := by
        rw [List.find?_eq_none]
        intro m hm hpm
        have hmid : m.id = id := by simpa using hpm
        have hgen := hwf.1 m hm
        rw [hmid] at hgen
        exact hchex' (generated_take12_hex hgen c hcmem12)
      have hnm : id ∉ st.tombstones := by
        intro hmem
        exact hchex' (generated_take12_hex (hwf.2 id hmem) c hcmem12)
      simp [getNoteController, readNote, hc, hfindNone, hnm]
    · exact absurd hdrop h
  · have hc' : checkId id = false := by
      cases hcc : checkId id
      · rfl
      · exact absurd hcc hc
    simp [getNoteController, readNote, hc']

/-- Witness for C7: the id `"NaN"` against a store holding one generated id. -/
theorem C7_invalid_id_404_witness :
    WellFormedStore ⟨[⟨['a','a','a','a','a','a','a','a','a','a','a','a','9','6','d','4'],
        ['c'], ['h'], 0, 5, ['v','1']⟩], []⟩ ∧
    specInvalidId ['N','a','N'] ∧
    (getNoteController ⟨[⟨['a','a','a','a','a','a','a','a','a','a','a','a','9','6','d','4'],
        ['c'], ['h'], 0, 5, ['v','1']⟩], []⟩ ['N','a','N']).1 = 404 ∧
    (getNoteController ⟨[⟨['a','a','a','a','a','a','a','a','a','a','a','a','9','6','d','4'],
        ['c'], ['h'], 0, 5, ['v','1']⟩], []⟩ ['N','a','N']).2.success = false := by
  have hwf : WellFormedStore ⟨[⟨['a','a','a','a','a','a','a','a','a','a','a','a','9','6','d','4'],
      ['c'], ['h'], 0, 5, ['v','1']⟩], []⟩ := ⟨by decide, by decide⟩
  have hinv : specInvalidId ['N','a','N'] := Or.inl (by decide)
  have h := C7_invalid_id_404 _ ['N','a','N'] hwf hinv
  exact ⟨hwf, hinv, h.1, h.2⟩

/-! ## The rate limiter (modelled from the spec) -/

/-- Modelled from the spec: §4.4 the fixed-window rate limiter (the
`express-rate-limit` configuration is not under `src/`) — within one window it
admits the first `budget` requests and rejects every further one with 429; an
admitted well-formed request is served with its success status 200.  The list
holds the status codes of a burst of `k` well-formed requests in one window. -/
def rateLimitBurst (budget k : Nat) : List Nat :=
  (List.range k).map (fun i => if i < budget then 200 else 429)

/-- C9: a burst of well-formed requests exceeding the per-window budget gets
at least one 429 and at least one 200, and no status outside {200, 429}. -/
theorem C9_rate_limit_burst (budget k : Nat) (hb : 0 < budget) (hk : budget < k) :
    200 ∈ rateLimitBurst budget k ∧ 429 ∈ rateLimitBurst budget k ∧
    ∀ s ∈ rateLimitBurst budget k, s = 200 ∨ s = 429 := by
  refine ⟨?_, ?_, ?_⟩
  · exact List.mem_map.2 ⟨0, List.mem_range.2 (by omega), by simp [hb]⟩
  · exact List.mem_map.2 ⟨budget, List.mem_range.2 hk, by simp⟩
  · intro s hs
    rcases List.mem_map.1 hs with ⟨i, _, hi⟩
    by_cases h : i < budget <;> simp [h] at hi <;> omega

/-- Witness for C9 at budget 2 and a burst of 5 requests. -/
theorem C9_rate_limit_burst_witness :
    (0 : Nat) < 2 ∧ (2 : Nat) < 5 ∧
    200 ∈ rateLimitBurst 2 5 ∧ 429 ∈ rateLimitBurst 2 5 := by
  have h := C9_rate_limit_burst 2 5 (by decide) (by decide)
  exact ⟨by decide, by decide, h.1, h.2.1⟩
